import Mathlib

/-!
Verification of the shell-profile environment block manager of
`umake/tools.py` (functions `remove_framework_envs_from_user`,
`add_env_to_user`, `_get_shell_profile_file_path` and the constant
`profile_tag`).

File contents are modelled as `List Char` (Python `str` read with a fixed
encoding), the process environment as a function `String → Option String`
(Python `os.environ`: absent key gives `None`), and the profile file on disk
as `Option Content` (`none` when the file does not exist). Python string
search (`str.find`, `in`) is modelled by `findSubstr`, which returns the
index of the first occurrence. The `while` loop of
`remove_framework_envs_from_user` is modelled by `removeLoopFuel` with an
explicit fuel argument (the loop strictly shrinks the content, so fuel
`length + 1` is always sufficient, which is proved below).
-/

abbrev Content := List Char

/-- Test whether `p` occurs at the start of `s` (Python `s.startswith(p)`,
used as the one-position check inside substring search). -/
def isPre : List Char → List Char → Bool
  | [], _ => true
  | _ :: _, [] => false
  | a :: p, b :: s => a = b && isPre p s

/-- Index of the first occurrence of `p` in `s`; `none` when `p` does not
occur.  Models Python `s.find(p)` (with `none` for `-1`) and `p in s`
(occurrence test). -/
def findSubstr (p : List Char) : List Char → Option Nat
  | [] => if isPre p [] then some 0 else none
  | b :: t => if isPre p (b :: t) then some 0 else (findSubstr p t).map (· + 1)

/-- The blank-line separator `"\n\n"` searched for by the removal loop. -/
def blankSep : Content := ['\n', '\n']

/-- The header line `profile_tag.format(framework_tag)`, from the source
constant `profile_tag = "# Ubuntu make installation of {}\n"`. -/
def profile_tag (framework_tag : String) : Content :=
  "# Ubuntu make installation of ".data ++ framework_tag.data ++ ['\n']

/-- Index just past the deleted region for one loop iteration:
`framework_start_index + framework_end_index + len("\n\n")`, where
`framework_end_index` is Python `find`, returning `-1` when `"\n\n"` is
absent (so the deletion then covers exactly one character). -/
def spliceIdx (start : Nat) : Option Nat → Nat
  | none => start + 1
  | some j => start + j + 2

/-- One iteration of the removal loop body:
`content = content[:start] + content[start + end + len("\n\n"):]`. -/
def removeStep (header content : Content) : Content :=
  match findSubstr header content with
  | none => content
  | some start =>
      content.take start ++
        content.drop (spliceIdx start (findSubstr blankSep (content.drop start)))

/-- The `while framework_header in content` loop, with explicit fuel. -/
def removeLoopFuel : Nat → Content → Content → Content
  | 0, _, content => content
  | fuel + 1, header, content =>
      match findSubstr header content with
      | none => content
      | some _ => removeLoopFuel fuel header (removeStep header content)

/-- The removal loop; fuel `content.length + 1` always suffices because each
iteration strictly shrinks the content (proved below). -/
def removeLoop (header content : Content) : Content :=
  removeLoopFuel (content.length + 1) header content

/-- Content transformation of `remove_framework_envs_from_user` once the
file has been read: return unchanged when the header is absent, else run the
removal loop. -/
def removeContent (header content : Content) : Content :=
  if findSubstr header content = none then content else removeLoop header content

/-- `remove_framework_envs_from_user` at the file level: a missing file
(`FileNotFoundError`) is a silent no-op that does not create the file;
otherwise the rewritten content replaces the file. -/
def remove_framework_envs_from_user (framework_tag : String) :
    Option Content → Option Content
  | none => none
  | some content => some (removeContent (profile_tag framework_tag) content)

/-- One entry of `env_dict`: a `value` that is a string or a list of strings,
and an optional `keep` key (`env_dict[env].get("keep", True)`). -/
structure EnvEntry where
  value : Sum String (List String)
  keep : Option Bool

/-- The process environment `os.environ`. -/
abbrev Env := String → Option String

/-- Assignment `os.environ[name] = v`. -/
def updateEnv (env : Env) (name v : String) : Env :=
  fun n => if n = name then some v else env n

/-- Python truthiness of `os.environ.get(name)`: `None` and the empty string
are falsy. -/
def isTruthy : Option String → Bool
  | none => false
  | some v => v ≠ ""

/-- Resolve the `value` field: a list is joined with `os.pathsep`
(`":"` on POSIX). -/
def resolveValue : Sum String (List String) → String
  | Sum.inl s => s
  | Sum.inr l => String.intercalate ":" l

/-- Per-variable body of the loop in `add_env_to_user`: returns the updated
process environment and the value text to write into the profile line. -/
def processVar (env : Env) (name : String) (entry : EnvEntry) : Env × String :=
  let value := resolveValue entry.value
  if entry.keep.getD true && isTruthy (env name) then
    (updateEnv env name (value ++ ":" ++ ((env name).getD "")),
     value ++ ":$" ++ name)
  else
    (updateEnv env name value, value)

/-- The whole `for env in env_dict` loop, in insertion order, threading the
process environment and collecting `envs_to_insert`. -/
def processEnvs (env : Env) : List (String × EnvEntry) → Env × List (String × String)
  | [] => (env, [])
  | (n, e) :: rest =>
      let r := processVar env n e
      let rr := processEnvs r.1 rest
      (rr.1, (n, r.2) :: rr.2)

/-- One profile line `"{}{}={}\n".format(export, env, value)` where `export`
is `"export "` for every name except `"PATH"`. -/
def envLine (name value : String) : String :=
  (if name ≠ "PATH" then "export " else "") ++ name ++ "=" ++ value ++ "\n"

/-- The full text appended by `add_env_to_user`: header line, one line per
variable, then a blank line. -/
def blockText (framework_tag : String) (lines : List (String × String)) : Content :=
  profile_tag framework_tag ++
    (lines.map (fun p => (envLine p.1 p.2).data)).flatten ++ ['\n']

/-- `add_env_to_user`: first remove any existing block for the tag, then
process the variables (mutating the process environment), then append the
new block (append mode creates a missing file). Returns the new file state
and the new process environment. -/
def add_env_to_user (framework_tag : String) (env_dict : List (String × EnvEntry))
    (file : Option Content) (env : Env) : Option Content × Env :=
  let file1 := remove_framework_envs_from_user framework_tag file
  let r := processEnvs env env_dict
  (some ((file1.getD []) ++ blockText framework_tag r.2), r.1)

/-- ASCII lowering of one character, modelling `str.lower()` on the ASCII
range relevant to shell names. -/
def charLower (c : Char) : Char :=
  if 65 ≤ c.toNat ∧ c.toNat ≤ 90 then Char.ofNat (c.toNat + 32) else c

/-- Lowered character data of a string (`current_shell.lower()`). -/
def lowerData (s : String) : List Char := s.data.map charLower

/-- POSIX `os.path.join(a, b)`: `b` absolute replaces `a`; otherwise a `"/"`
is inserted unless `a` is empty or already ends with `"/"`. -/
def pathJoin (a b : String) : String :=
  if isPre "/".data b.data then b
  else if a = "" || isPre "/".data.reverse a.data.reverse then a ++ b
  else a ++ "/" ++ b

/-- Does the lowered shell name contain `"zsh"` (`'zsh' in current_shell`)? -/
def hasZsh (shellEnv : Option String) : Bool :=
  (findSubstr "zsh".data (lowerData (shellEnv.getD "/bin/bash"))).isSome

/-- `_get_shell_profile_file_path`, parametrised by the `SHELL` environment
variable (`none` when unset, default `"/bin/bash"`) and the home directory. -/
def get_shell_profile_file_path (shellEnv : Option String) (home : String) : String :=
  pathJoin home (if hasZsh shellEnv then ".zprofile" else ".profile")

/-- Number of positions at which `p` occurs in `s`; `countOcc p s = 1` states
that `s` holds exactly one occurrence (one block header) of `p`. -/
def countOcc (p s : Content) : Nat :=
  ((List.range (s.length + 1)).filter (fun i => isPre p (s.drop i))).length

/-- The empty process environment, used by concrete witnesses. -/
def emptyEnv : Env := fun _ => none

/-- A process environment holding only `FOO=old`, used by concrete
witnesses. -/
def fooOldEnv : Env := fun n => if n = "FOO" then some "old" else none

/-! Basic facts about `isPre` and `findSubstr`. -/

lemma isPre_nil_right {p : Content} (h : isPre p [] = true) : p = [] := by
  cases p with
  | nil => rfl
  | cons a t => simp [isPre] at h

lemma isPre_length {p s : Content} (h : isPre p s = true) : p.length ≤ s.length := by
  induction p generalizing s with
  | nil => simp
  | cons a t ih =>
    cases s with
    | nil => simp [isPre] at h
    | cons b u =>
      simp only [isPre, Bool.and_eq_true] at h
      simpa using ih h.2

lemma isPre_append_self (p r : Content) : isPre p (p ++ r) = true := by
  induction p with
  | nil => rfl
  | cons a t ih => simp [isPre, ih]

lemma findSubstr_le {p s : Content} {i : Nat} (h : findSubstr p s = some i) :
    i + p.length ≤ s.length := by
  induction s generalizing i with
  | nil =>
    simp only [findSubstr] at h
    split at h
    · next hp =>
      have := isPre_nil_right hp
      simp_all
    · simp at h
  | cons b t ih =>
    simp only [findSubstr] at h
    split at h
    · next hp =>
      have h0 : i = 0 := by simpa using h.symm
      subst h0
      simpa using isPre_length hp
    · obtain ⟨j, hj, hji⟩ := Option.map_eq_some'.mp h
      have := ih hj
      simp only [List.length_cons]
      omega

lemma findSubstr_isPre {p s : Content} {i : Nat} (h : findSubstr p s = some i) :
    isPre p (s.drop i) = true := by
  induction s generalizing i with
  | nil =>
    simp only [findSubstr] at h
    split at h
    · next hp =>
      have h0 : i = 0 := by simpa using h.symm
      simpa [h0] using hp
    · simp at h
  | cons b t ih =>
    simp only [findSubstr] at h
    split at h
    · next hp =>
      have h0 : i = 0 := by simpa using h.symm
      simpa [h0] using hp
    · obtain ⟨j, hj, hji⟩ := Option.map_eq_some'.mp h
      subst hji
      simpa [List.drop_succ_cons] using ih hj

lemma findSubstr_min {p s : Content} {i : Nat} (h : findSubstr p s = some i) :
    ∀ j, j < i → isPre p (s.drop j) = false := by
  induction s generalizing i with
  | nil =>
    simp only [findSubstr] at h
    split at h
    · next hp =>
      have h0 : i = 0 := by simpa using h.symm
      intro j hj
      omega
    · simp at h
  | cons b t ih =>
    simp only [findSubstr] at h
    split at h
    · next hp =>
      have h0 : i = 0 := by simpa using h.symm
      intro j hj
      omega
    · next hp =>
      obtain ⟨j', hj', hji⟩ := Option.map_eq_some'.mp h
      subst hji
      intro j hj
      cases j with
      | zero =>
        simpa using Bool.not_eq_true _ |>.mp hp
      | succ m =>
        simpa [List.drop_succ_cons] using ih hj' m (by omega)

lemma findSubstr_none {p s : Content} (h : findSubstr p s = none) :
    ∀ j, isPre p (s.drop j) = false := by
  induction s with
  | nil =>
    simp only [findSubstr] at h
    split at h
    · simp at h
    · next hp =>
      intro j
      simpa using Bool.not_eq_true _ |>.mp hp
  | cons b t ih =>
    simp only [findSubstr] at h
    split at h
    · simp at h
    · next hp =>
      have ht : findSubstr p t = none := Option.map_eq_none'.mp h
      intro j
      cases j with
      | zero => simpa using Bool.not_eq_true _ |>.mp hp
      | succ m => simpa [List.drop_succ_cons] using ih ht m

lemma findSubstr_nil_of_ne {p : Content} (hp : p ≠ []) : findSubstr p [] = none := by
  cases p with
  | nil => exact absurd rfl hp
  | cons a t => simp [findSubstr, isPre]

/-! Take and drop across an append boundary. -/

lemma take_len (A E : Content) : (A ++ E).take A.length = A := List.take_left A E

lemma drop_len (A E : Content) : (A ++ E).drop A.length = E := List.drop_left A E

lemma drop_len_add (A E : Content) (n : Nat) :
    (A ++ E).drop (A.length + n) = E.drop n := by
  induction A with
  | nil => simp
  | cons a t ih =>
    simp only [List.cons_append, List.length_cons]
    rw [Nat.add_right_comm, List.drop_succ_cons]
    exact ih

/-! The removal loop: each iteration strictly shrinks the content, the fuel
of `removeLoop` is therefore sufficient, and the loop result is free of the
header. -/

lemma length_pos_of_ne_nil {h : Content} (hh : h ≠ []) : 1 ≤ h.length := by
  cases h with
  | nil => exact absurd rfl hh
  | cons a t => simp

lemma removeStep_some {h c : Content} {s : Nat} (hf : findSubstr h c = some s) :
    removeStep h c
      = c.take s ++ c.drop (spliceIdx s (findSubstr blankSep (c.drop s))) := by
  unfold removeStep
  rw [hf]

lemma removeStep_length_lt {h c : Content} {s : Nat} (hh : h ≠ [])
    (hf : findSubstr h c = some s) : (removeStep h c).length < c.length := by
  have hb := findSubstr_le hf
  have hlen : 1 ≤ h.length := length_pos_of_ne_nil hh
  have hs : s < c.length := by omega
  rw [removeStep_some hf]
  cases hnn : findSubstr blankSep (c.drop s) with
  | none =>
    simp only [hnn, spliceIdx, List.length_append, List.length_take, List.length_drop]
    omega
  | some j =>
    have hj := findSubstr_le hnn
    simp only [List.length_drop] at hj
    have h2 : blankSep.length = 2 := by decide
    rw [h2] at hj
    simp only [hnn, spliceIdx, List.length_append, List.length_take, List.length_drop]
    omega

lemma removeLoopFuel_irrel {h : Content} (hh : h ≠ []) :
    ∀ f g c, c.length < f → c.length < g →
      removeLoopFuel f h c = removeLoopFuel g h c := by
  intro f
  induction f with
  | zero => intro g c hf _; exact absurd hf (Nat.not_lt_zero _)
  | succ f ih =>
    intro g c hf hg
    cases g with
    | zero => exact absurd hg (Nat.not_lt_zero _)
    | succ g =>
      cases hfind : findSubstr h c with
      | none => simp [removeLoopFuel, hfind]
      | some s =>
        simp only [removeLoopFuel, hfind]
        have hlt := removeStep_length_lt hh hfind
        exact ih g (removeStep h c) (by omega) (by omega)

lemma removeLoop_of_none {h c : Content} (hf : findSubstr h c = none) :
    removeLoop h c = c := by
  simp [removeLoop, removeLoopFuel, hf]

lemma removeLoop_step {h c : Content} {s : Nat} (hh : h ≠ [])
    (hf : findSubstr h c = some s) :
    removeLoop h c = removeLoop h (removeStep h c) := by
  have hlt := removeStep_length_lt hh hf
  have hunfold : removeLoopFuel (c.length + 1) h c
      = removeLoopFuel c.length h (removeStep h c) := by
    simp only [removeLoopFuel, hf]
  rw [removeLoop, hunfold, removeLoop]
  exact removeLoopFuel_irrel hh c.length ((removeStep h c).length + 1)
    (removeStep h c) hlt (Nat.lt_succ_self _)

lemma removeLoop_find_none_aux {h : Content} (hh : h ≠ []) :
    ∀ N c, c.length ≤ N → findSubstr h (removeLoop h c) = none := by
  intro N
  induction N with
  | zero =>
    intro c hc
    have hcq : c = [] := List.eq_nil_of_length_eq_zero (Nat.le_zero.mp hc)
    subst hcq
    have hf : findSubstr h [] = none := findSubstr_nil_of_ne hh
    rw [removeLoop_of_none hf]
    exact hf
  | succ N ih =>
    intro c hc
    cases hfind : findSubstr h c with
    | none =>
      rw [removeLoop_of_none hfind]
      exact hfind
    | some s =>
      rw [removeLoop_step hh hfind]
      have hlt := removeStep_length_lt hh hfind
      exact ih (removeStep h c) (by omega)

lemma removeLoop_find_none {h : Content} (hh : h ≠ []) (c : Content) :
    findSubstr h (removeLoop h c) = none :=
  removeLoop_find_none_aux hh c.length c (Nat.le_refl _)

lemma removeContent_find_none {h : Content} (hh : h ≠ []) (c : Content) :
    findSubstr h (removeContent h c) = none := by
  unfold removeContent
  split
  · next hf => exact hf
  · exact removeLoop_find_none hh c

/-- Removing a well-delimited block that sits between `A` and `D`: when the
first header occurrence starts exactly at `A.length`, the first blank-line
separator after it ends exactly at the end of `B`, and no header occurrence
remains in `A ++ D`, the loop deletes exactly `B`. -/
lemma removeLoop_block {Hd A B D : Content} (hH : Hd ≠ []) (hB : 2 ≤ B.length)
    (h1 : findSubstr Hd (A ++ (B ++ D)) = some A.length)
    (h2 : findSubstr blankSep (B ++ D) = some (B.length - 2))
    (h3 : findSubstr Hd (A ++ D) = none) :
    removeLoop Hd (A ++ (B ++ D)) = A ++ D := by
  have hstep : removeStep Hd (A ++ (B ++ D)) = A ++ D := by
    rw [removeStep_some h1, drop_len, h2]
    simp only [spliceIdx]
    rw [take_len]
    have hidx : A.length + (B.length - 2) + 2 = A.length + B.length := by omega
    rw [hidx, drop_len_add, drop_len]
  rw [removeLoop_step hH h1, hstep, removeLoop_of_none h3]

/-! Facts about the header line and the appended block. -/

lemma data_append (a b : String) : (a ++ b).data = a.data ++ b.data := by
  cases a; cases b; rfl

lemma profile_tag_ne_nil (t : String) : profile_tag t ≠ [] := by
  unfold profile_tag
  intro h
  have h2 := List.append_eq_nil.mp h
  simp at h2

lemma blockText_two_le (t : String) (L : List (String × String)) :
    2 ≤ (blockText t L).length := by
  simp only [blockText, profile_tag, List.length_append]
  have hc : (['\n'] : Content).length = 1 := rfl
  omega

/-- Removing from `R ++ B` when `R` is header-free, the first header
occurrence starts exactly at the appended block `B`, and the first blank-line
separator in `B` is its final terminator: exactly `B` is deleted. -/
lemma removeContent_append_block {Hd R B : Content} (hH : Hd ≠ [])
    (hB : 2 ≤ B.length)
    (hR : findSubstr Hd R = none)
    (h1 : findSubstr Hd (R ++ B) = some R.length)
    (h2 : findSubstr blankSep B = some (B.length - 2)) :
    removeContent Hd (R ++ B) = R := by
  have hne : findSubstr Hd (R ++ B) ≠ none := by rw [h1]; simp
  have h1' : findSubstr Hd (R ++ (B ++ [])) = some R.length := by
    rw [List.append_nil]; exact h1
  have h2' : findSubstr blankSep (B ++ []) = some (B.length - 2) := by
    rw [List.append_nil]; exact h2
  have h3' : findSubstr Hd (R ++ ([] : Content)) = none := by
    rw [List.append_nil]; exact hR
  have hblk := removeLoop_block hH hB h1' h2' h3'
  simp only [List.append_nil] at hblk
  rw [removeContent, if_neg hne]
  exact hblk

/-! Counting header occurrences. -/

lemma filter_eq_single {p : Nat → Bool} (l : List Nat) (hnd : l.Nodup) (i : Nat)
    (hi : i ∈ l) (hch : ∀ j ∈ l, (p j = true ↔ j = i)) : l.filter p = [i] := by
  induction l with
  | nil => cases hi
  | cons a t ih =>
    rw [List.nodup_cons] at hnd
    rcases List.mem_cons.mp hi with hia | hit
    · subst hia
      have hpa : p i = true := (hch i (List.mem_cons_self i t)).mpr rfl
      rw [List.filter_cons_of_pos hpa]
      have hnil : t.filter p = [] := by
        refine List.filter_eq_nil_iff.mpr ?_
        intro j hj hpj
        have hji := (hch j (List.mem_cons_of_mem i hj)).mp hpj
        subst hji
        exact hnd.1 hj
      rw [hnil]
    · have hpa : ¬ p a = true := by
        intro hpa
        have hai := (hch a (List.mem_cons_self a t)).mp hpa
        subst hai
        exact hnd.1 hit
      rw [List.filter_cons_of_neg hpa]
      exact ih hnd.2 hit (fun j hj => hch j (List.mem_cons_of_mem a hj))

/-- When the first header occurrence in `R ++ B` starts at `R.length` and no
occurrence starts strictly inside `B`, the content holds exactly one header
occurrence. -/
lemma countOcc_eq_one {Hd R B : Content} (hH : Hd ≠ [])
    (h1 : findSubstr Hd (R ++ B) = some R.length)
    (h3 : findSubstr Hd (B.drop 1) = none) :
    countOcc Hd (R ++ B) = 1 := by
  have hle := findSubstr_le h1
  have hlen : 1 ≤ Hd.length := length_pos_of_ne_nil hH
  have hmem : R.length ∈ List.range ((R ++ B).length + 1) :=
    List.mem_range.mpr (by omega)
  have hch : ∀ j ∈ List.range ((R ++ B).length + 1),
      ((fun i => isPre Hd ((R ++ B).drop i)) j = true ↔ j = R.length) := by
    intro j _
    constructor
    · intro hpre
      have hpre' : isPre Hd ((R ++ B).drop j) = true := hpre
      rcases Nat.lt_trichotomy j R.length with hlt | heq | hgt
      · rw [findSubstr_min h1 j hlt] at hpre'
        cases hpre'
      · exact heq
      · exfalso
        have hj' : j = R.length + (j - R.length - 1 + 1) := by omega
        rw [hj', drop_len_add] at hpre'
        have hdd : B.drop (j - R.length - 1 + 1) = (B.drop 1).drop (j - R.length - 1) := by
          rw [List.drop_drop]
          congr 1
          omega
        rw [hdd, findSubstr_none h3 _] at hpre'
        cases hpre'
    · intro hj'
      subst hj'
      have hp := findSubstr_isPre h1
      rw [drop_len] at hp
      simpa [drop_len] using hp
  unfold countOcc
  rw [filter_eq_single (List.range ((R ++ B).length + 1)) (List.nodup_range _)
    R.length hmem hch]
  rfl

/-! Claim theorems. -/

lemma removeLoop_iterate_aux {h : Content} (hh : h ≠ []) :
    ∀ N c, c.length ≤ N →
      ∃ n, n ≤ c.length ∧ findSubstr h ((removeStep h)^[n] c) = none
        ∧ removeLoop h c = (removeStep h)^[n] c := by
  intro N
  induction N with
  | zero =>
    intro c hc
    have hcq : c = [] := List.eq_nil_of_length_eq_zero (Nat.le_zero.mp hc)
    subst hcq
    exact ⟨0, Nat.le_refl _, findSubstr_nil_of_ne hh,
      removeLoop_of_none (findSubstr_nil_of_ne hh)⟩
  | succ N ih =>
    intro c hc
    cases hfind : findSubstr h c with
    | none => exact ⟨0, Nat.zero_le _, hfind, removeLoop_of_none hfind⟩
    | some s =>
      have hlt := removeStep_length_lt hh hfind
      obtain ⟨n, hn, hfix, hloop⟩ := ih (removeStep h c) (by omega)
      refine ⟨n + 1, by omega, ?_, ?_⟩
      · rw [Function.iterate_succ_apply]
        exact hfix
      · rw [removeLoop_step hh hfind, Function.iterate_succ_apply]
        exact hloop

/-- C4: the removal loop of `remove_framework_envs_from_user` terminates on
every file content: within at most `content.length` iterations of the loop
body (`removeStep`) the header line no longer occurs — including on contents
where a header occurrence has no following blank line — and `removeLoop`
computes exactly that iterate. -/
theorem claim4_remove_loop_terminates (framework_tag : String) (content : Content) :
    ∃ n, n ≤ content.length
      ∧ findSubstr (profile_tag framework_tag)
          ((removeStep (profile_tag framework_tag))^[n] content) = none
      ∧ removeLoop (profile_tag framework_tag) content
          = (removeStep (profile_tag framework_tag))^[n] content :=
  removeLoop_iterate_aux (profile_tag_ne_nil framework_tag) content.length content
    (Nat.le_refl _)

/-- C6: when the profile file does not exist, `remove_framework_envs_from_user`
returns silently for any tag, does not create the file, and leaves the
filesystem state unchanged. -/
theorem claim6_remove_missing_file_noop (framework_tag : String) :
    remove_framework_envs_from_user framework_tag none = none := rfl

/-- C7: in every block written by `add_env_to_user` (whose lines are produced
by `envLine`), the variable named `PATH` is written as a plain assignment
without the `export ` prefix, while every other variable name receives the
`export ` prefix. -/
theorem claim7_path_written_without_export (name value : String) :
    (name = "PATH" → envLine name value = "PATH=" ++ value ++ "\n")
    ∧ (name ≠ "PATH" → envLine name value = "export " ++ name ++ "=" ++ value ++ "\n") := by
  constructor
  · intro h
    subst h
    rfl
  · intro h
    unfold envLine
    rw [if_pos h]

/-- C7 witness: the two cases evaluated at concrete names. -/
theorem claim7_witness :
    envLine "PATH" "/x/bin" = "PATH=" ++ "/x/bin" ++ "\n"
    ∧ envLine "CLASSPATH" "/x" = "export " ++ "CLASSPATH" ++ "=" ++ "/x" ++ "\n" :=
  ⟨(claim7_path_written_without_export "PATH" "/x/bin").1 rfl,
   (claim7_path_written_without_export "CLASSPATH" "/x").2 (by decide)⟩

lemma isPre_home_pathJoin (home f : String) (hf : isPre "/".data f.data = false) :
    isPre home.data (pathJoin home f).data = true := by
  unfold pathJoin
  rw [if_neg (by simp [hf])]
  split
  · rw [data_append]
    exact isPre_append_self home.data f.data
  · rw [data_append, data_append, List.append_assoc]
    exact isPre_append_self home.data ("/".data ++ f.data)

/-- C8: profile path resolution is total and always resolves under the home
directory: the filename is `.zprofile` exactly when the lowered shell name
(defaulting to `/bin/bash` when `SHELL` is unset) contains `zsh`, and
`.profile` otherwise, joined onto the home directory. -/
theorem claim8_profile_path_resolution (shellEnv : Option String) (home : String) :
    (hasZsh shellEnv = true →
      get_shell_profile_file_path shellEnv home = pathJoin home ".zprofile")
    ∧ (hasZsh shellEnv = false →
      get_shell_profile_file_path shellEnv home = pathJoin home ".profile")
    ∧ isPre home.data (get_shell_profile_file_path shellEnv home).data = true := by
  refine ⟨?_, ?_, ?_⟩
  · intro h
    rw [get_shell_profile_file_path, if_pos h]
  · intro h
    rw [get_shell_profile_file_path, if_neg (by simp [h])]
  · cases hz : hasZsh shellEnv with
    | true =>
      rw [get_shell_profile_file_path, if_pos hz]
      exact isPre_home_pathJoin home ".zprofile" (by decide)
    | false =>
      rw [get_shell_profile_file_path, if_neg (by simp [hz])]
      exact isPre_home_pathJoin home ".profile" (by decide)

/-- C8 witness: path resolution evaluated for a zsh shell and under a
concrete home directory. -/
theorem claim8_witness :
    hasZsh (some "/usr/bin/zsh") = true
    ∧ get_shell_profile_file_path (some "/usr/bin/zsh") "/home/u"
        = pathJoin "/home/u" ".zprofile"
    ∧ isPre "/home/u".data (get_shell_profile_file_path (some "/usr/bin/zsh") "/home/u").data
        = true :=
  ⟨by decide,
   (claim8_profile_path_resolution (some "/usr/bin/zsh") "/home/u").1 (by decide),
   (claim8_profile_path_resolution (some "/usr/bin/zsh") "/home/u").2.2⟩

/-- C5: keep-merge. With `FOO` mapped to the non-empty string `old` in the
process environment and a spec entry `{value: "new"}` whose `keep` is `true`
or unspecified, `add_env_to_user` sets the process variable to `new:old` and
writes the profile line `export FOO=new:$FOO`. -/
theorem claim5_keep_merge (C : Content) (framework_tag : String) (env : Env)
    (keep : Option Bool) (hkeep : keep ≠ some false)
    (hFOO : env "FOO" = some "old") :
    (add_env_to_user framework_tag [("FOO", ⟨Sum.inl "new", keep⟩)] (some C) env).2 "FOO"
        = some "new:old"
    ∧ (add_env_to_user framework_tag [("FOO", ⟨Sum.inl "new", keep⟩)] (some C) env).1
        = some (removeContent (profile_tag framework_tag) C
            ++ blockText framework_tag [("FOO", "new:$FOO")]) := by
  have hk : keep.getD true = true := by
    cases keep with
    | none => rfl
    | some b =>
      cases b with
      | false => exact absurd rfl hkeep
      | true => rfl
  have hpv : processVar env "FOO" ⟨Sum.inl "new", keep⟩
      = (updateEnv env "FOO" "new:old", "new:$FOO") := by
    unfold processVar
    have hcond : ((⟨Sum.inl "new", keep⟩ : EnvEntry).keep.getD true
        && isTruthy (env "FOO")) = true := by
      rw [hFOO]
      simp [hk, isTruthy]
    rw [if_pos hcond, hFOO]
    rfl
  constructor
  · show (processEnvs env [("FOO", ⟨Sum.inl "new", keep⟩)]).1 "FOO" = some "new:old"
    simp only [processEnvs, hpv]
    simp [updateEnv]
  · show some ((remove_framework_envs_from_user framework_tag (some C)).getD []
        ++ blockText framework_tag (processEnvs env [("FOO", ⟨Sum.inl "new", keep⟩)]).2)
        = _
    simp only [processEnvs, hpv, remove_framework_envs_from_user, Option.getD_some]

/-- C5 witness: keep-merge evaluated with `keep` unspecified, an empty
profile file and the concrete environment `FOO=old`. -/
theorem claim5_witness :
    (fooOldEnv "FOO" = some "old")
    ∧ (add_env_to_user "t" [("FOO", ⟨Sum.inl "new", none⟩)] (some []) fooOldEnv).2 "FOO"
        = some "new:old"
    ∧ (add_env_to_user "t" [("FOO", ⟨Sum.inl "new", none⟩)] (some []) fooOldEnv).1
        = some (removeContent (profile_tag "t") []
            ++ blockText "t" [("FOO", "new:$FOO")]) :=
  ⟨by decide,
   (claim5_keep_merge [] "t" fooOldEnv none (by decide) (by decide)).1,
   (claim5_keep_merge [] "t" fooOldEnv none (by decide) (by decide)).2⟩

/-- C9 counterexample: for the content `"#" ++ header` the claim premises
hold — exactly one header occurrence (at index 1) and no `"\n\n"` at or
after it — yet `remove_framework_envs_from_user` does not delete exactly one
character: deleting the first character of the occurrence recreates the
header, so a second iteration deletes another character. -/
theorem claim9_counterexample :
    countOcc (profile_tag "a") ('#' :: profile_tag "a") = 1
    ∧ findSubstr (profile_tag "a") ('#' :: profile_tag "a") = some 1
    ∧ findSubstr blankSep (('#' :: profile_tag "a").drop 1) = none
    ∧ remove_framework_envs_from_user "a" (some ('#' :: profile_tag "a"))
        ≠ some (('#' :: profile_tag "a").take 1 ++ ('#' :: profile_tag "a").drop 2) := by
  refine ⟨by decide, by decide, by decide, by decide⟩

/-- C9 (amended): if the header occurs first at index `i`, no `"\n\n"`
occurs at or after that occurrence, and deleting the single character at `i`
leaves no header occurrence, then `remove_framework_envs_from_user` deletes
exactly that one character, leaves all other content intact, and rewrites
the file with that result. -/
theorem claim9_unterminated_block_amended (framework_tag : String) (c : Content)
    (i : Nat)
    (h1 : findSubstr (profile_tag framework_tag) c = some i)
    (h2 : findSubstr blankSep (c.drop i) = none)
    (h3 : findSubstr (profile_tag framework_tag) (c.take i ++ c.drop (i + 1)) = none) :
    remove_framework_envs_from_user framework_tag (some c)
      = some (c.take i ++ c.drop (i + 1)) := by
  have hh := profile_tag_ne_nil framework_tag
  have hne : findSubstr (profile_tag framework_tag) c ≠ none := by rw [h1]; simp
  have hstep : removeStep (profile_tag framework_tag) c
      = c.take i ++ c.drop (i + 1) := by
    rw [removeStep_some h1, h2]
    rfl
  show some (removeContent (profile_tag framework_tag) c) = _
  rw [removeContent, if_neg hne, removeLoop_step hh h1, hstep,
    removeLoop_of_none h3]

/-- C9 witness: the amended claim evaluated on the content consisting of
exactly the header line for tag `a` (no terminating blank line). -/
theorem claim9_witness :
    (findSubstr (profile_tag "a") (profile_tag "a") = some 0
      ∧ findSubstr blankSep ((profile_tag "a").drop 0) = none
      ∧ findSubstr (profile_tag "a")
          ((profile_tag "a").take 0 ++ (profile_tag "a").drop 1) = none)
    ∧ remove_framework_envs_from_user "a" (some (profile_tag "a"))
        = some ((profile_tag "a").take 0 ++ (profile_tag "a").drop 1) :=
  ⟨⟨by decide, by decide, by decide⟩,
   claim9_unterminated_block_amended "a" (profile_tag "a") 0 (by decide) (by decide)
     (by decide)⟩

/-- C2 counterexample: when the pre-add content already holds a block for
the tag (here: a header plus terminating blank line), `add` first removes it,
so the subsequent `remove` cannot restore the pre-add content. -/
theorem claim2_counterexample :
    remove_framework_envs_from_user "a"
      (add_env_to_user "a" [("FOO", ⟨Sum.inl "new", some false⟩)]
        (some (profile_tag "a" ++ ['\n'])) emptyEnv).1
      ≠ some (profile_tag "a" ++ ['\n']) := by decide

/-- C2 (amended): `add` then `remove` restores the pre-add content exactly,
provided the pre-add content holds no occurrence of the header line for the
tag, the first header occurrence in the post-add content starts exactly at
the appended block, and the first blank-line separator of the appended block
is its final terminator. -/
theorem claim2_roundtrip_amended (C B : Content) (framework_tag : String)
    (env_dict : List (String × EnvEntry)) (env : Env)
    (h0 : findSubstr (profile_tag framework_tag) C = none)
    (hB : blockText framework_tag (processEnvs env env_dict).2 = B)
    (h1 : findSubstr (profile_tag framework_tag) (C ++ B) = some C.length)
    (h2 : findSubstr blankSep B = some (B.length - 2)) :
    remove_framework_envs_from_user framework_tag
      (add_env_to_user framework_tag env_dict (some C) env).1 = some C := by
  have hh := profile_tag_ne_nil framework_tag
  have hB2 : 2 ≤ B.length := hB ▸ blockText_two_le framework_tag _
  have hCid : removeContent (profile_tag framework_tag) C = C := by
    rw [removeContent, if_pos h0]
  have hadd : (add_env_to_user framework_tag env_dict (some C) env).1
      = some (C ++ B) := by
    show some (removeContent (profile_tag framework_tag) C
        ++ blockText framework_tag (processEnvs env env_dict).2) = _
    rw [hCid, hB]
  rw [hadd]
  show some (removeContent (profile_tag framework_tag) (C ++ B)) = some C
  rw [removeContent_append_block hh hB2 h0 h1 h2]

/-- C2 witness: the amended round trip evaluated with pre-add content
`"X\n"`, tag `a` and a one-variable spec. -/
theorem claim2_witness :
    (findSubstr (profile_tag "a") ['X', '\n'] = none
      ∧ blockText "a" (processEnvs emptyEnv [("FOO", ⟨Sum.inl "new", some false⟩)]).2
          = blockText "a" [("FOO", "new")]
      ∧ findSubstr (profile_tag "a") (['X', '\n'] ++ blockText "a" [("FOO", "new")])
          = some 2
      ∧ findSubstr blankSep (blockText "a" [("FOO", "new")])
          = some ((blockText "a" [("FOO", "new")]).length - 2))
    ∧ remove_framework_envs_from_user "a"
        (add_env_to_user "a" [("FOO", ⟨Sum.inl "new", some false⟩)]
          (some ['X', '\n']) emptyEnv).1 = some ['X', '\n'] :=
  ⟨⟨by decide, by decide, by decide, by decide⟩,
   claim2_roundtrip_amended ['X', '\n'] (blockText "a" [("FOO", "new")]) "a"
     [("FOO", ⟨Sum.inl "new", some false⟩)] emptyEnv (by decide) (by decide)
     (by decide) (by decide)⟩

/-- C1 counterexample: starting from an empty profile file with `FOO` unset
in the process environment and `keep` unspecified, the first `add` writes
`export FOO=new` but also sets the process variable, so the second `add`
takes the keep-merge branch and writes `export FOO=new:$FOO`: the file after
the second call is not byte-identical to the file after a single call. -/
theorem claim1_counterexample :
    (add_env_to_user "a" [("FOO", ⟨Sum.inl "new", none⟩)]
        (add_env_to_user "a" [("FOO", ⟨Sum.inl "new", none⟩)] (some []) emptyEnv).1
        (add_env_to_user "a" [("FOO", ⟨Sum.inl "new", none⟩)] (some []) emptyEnv).2).1
      ≠ (add_env_to_user "a" [("FOO", ⟨Sum.inl "new", none⟩)] (some []) emptyEnv).1 := by
  decide

/-- C1 (amended): `add` twice equals `add` once and leaves exactly one block,
provided both calls compute the same block text (the keep branch taken for
each variable is the same in both calls), the first header occurrence in the
once-added content starts exactly at the appended block, the first blank-line
separator of the block is its final terminator, and no header occurrence
starts strictly inside the block. -/
theorem claim1_add_idempotent_amended (C R0 B : Content) (framework_tag : String)
    (env_dict : List (String × EnvEntry)) (env : Env)
    (hR : removeContent (profile_tag framework_tag) C = R0)
    (hB1 : blockText framework_tag (processEnvs env env_dict).2 = B)
    (hB2 : blockText framework_tag
        (processEnvs (processEnvs env env_dict).1 env_dict).2 = B)
    (h1 : findSubstr (profile_tag framework_tag) (R0 ++ B) = some R0.length)
    (h2 : findSubstr blankSep B = some (B.length - 2))
    (h3 : findSubstr (profile_tag framework_tag) (B.drop 1) = none) :
    (add_env_to_user framework_tag env_dict
        (add_env_to_user framework_tag env_dict (some C) env).1
        (add_env_to_user framework_tag env_dict (some C) env).2).1
      = (add_env_to_user framework_tag env_dict (some C) env).1
    ∧ countOcc (profile_tag framework_tag)
        ((add_env_to_user framework_tag env_dict (some C) env).1.getD []) = 1 := by
  have hh := profile_tag_ne_nil framework_tag
  have hB2len : 2 ≤ B.length := hB1 ▸ blockText_two_le framework_tag _
  have hR0 : findSubstr (profile_tag framework_tag) R0 = none := by
    rw [← hR]
    exact removeContent_find_none hh C
  have hadd1 : (add_env_to_user framework_tag env_dict (some C) env).1
      = some (R0 ++ B) := by
    show some (removeContent (profile_tag framework_tag) C
        ++ blockText framework_tag (processEnvs env env_dict).2) = _
    rw [hR, hB1]
  have hadd1env : (add_env_to_user framework_tag env_dict (some C) env).2
      = (processEnvs env env_dict).1 := rfl
  constructor
  · rw [hadd1, hadd1env]
    show some (removeContent (profile_tag framework_tag) (R0 ++ B)
        ++ blockText framework_tag
          (processEnvs (processEnvs env env_dict).1 env_dict).2) = some (R0 ++ B)
    rw [removeContent_append_block hh hB2len hR0 h1 h2, hB2]
  · rw [hadd1]
    show countOcc (profile_tag framework_tag) (R0 ++ B) = 1
    exact countOcc_eq_one hh h1 h3

/-- C1 witness: the amended idempotence evaluated at an empty initial file,
tag `a` and one `keep: false` variable. -/
theorem claim1_witness :
    (removeContent (profile_tag "a") [] = []
      ∧ blockText "a" (processEnvs emptyEnv [("FOO", ⟨Sum.inl "new", some false⟩)]).2
          = blockText "a" [("FOO", "new")]
      ∧ blockText "a"
          (processEnvs (processEnvs emptyEnv [("FOO", ⟨Sum.inl "new", some false⟩)]).1
            [("FOO", ⟨Sum.inl "new", some false⟩)]).2 = blockText "a" [("FOO", "new")]
      ∧ findSubstr (profile_tag "a") ([] ++ blockText "a" [("FOO", "new")]) = some 0
      ∧ findSubstr blankSep (blockText "a" [("FOO", "new")])
          = some ((blockText "a" [("FOO", "new")]).length - 2)
      ∧ findSubstr (profile_tag "a") ((blockText "a" [("FOO", "new")]).drop 1) = none)
    ∧ ((add_env_to_user "a" [("FOO", ⟨Sum.inl "new", some false⟩)]
          (add_env_to_user "a" [("FOO", ⟨Sum.inl "new", some false⟩)]
            (some []) emptyEnv).1
          (add_env_to_user "a" [("FOO", ⟨Sum.inl "new", some false⟩)]
            (some []) emptyEnv).2).1
        = (add_env_to_user "a" [("FOO", ⟨Sum.inl "new", some false⟩)]
            (some []) emptyEnv).1
      ∧ countOcc (profile_tag "a")
          ((add_env_to_user "a" [("FOO", ⟨Sum.inl "new", some false⟩)]
            (some []) emptyEnv).1.getD []) = 1) :=
  ⟨⟨by decide, by decide, by decide, by decide, by decide, by decide⟩,
   claim1_add_idempotent_amended [] [] (blockText "a" [("FOO", "new")]) "a"
     [("FOO", ⟨Sum.inl "new", some false⟩)] emptyEnv (by decide) (by decide)
     (by decide) (by decide) (by decide) (by decide)⟩

/-- C3 counterexample: with distinct tags `a` and `"a\nX"`, whose header for
the second tag contains the header for the first as a prefix, the two adds do
produce two blocks in order, but `remove` for tag `a` then deletes both
blocks (result: empty file), instead of leaving the second block untouched. -/
theorem claim3_counterexample :
    (add_env_to_user "a\nX" [("B", ⟨Sum.inl "2", some false⟩)]
        (add_env_to_user "a" [("A", ⟨Sum.inl "1", some false⟩)] (some []) emptyEnv).1
        (add_env_to_user "a" [("A", ⟨Sum.inl "1", some false⟩)] (some []) emptyEnv).2).1
      = some (blockText "a" [("A", "1")] ++ blockText "a\nX" [("B", "2")])
    ∧ remove_framework_envs_from_user "a"
        (add_env_to_user "a\nX" [("B", ⟨Sum.inl "2", some false⟩)]
          (add_env_to_user "a" [("A", ⟨Sum.inl "1", some false⟩)] (some []) emptyEnv).1
          (add_env_to_user "a" [("A", ⟨Sum.inl "1", some false⟩)] (some []) emptyEnv).2).1
        = some []
    ∧ some ([] : Content) ≠ some (blockText "a\nX" [("B", "2")]) := by
  refine ⟨by decide, by decide, by decide⟩

/-- C3 (amended): `add(T1, S1)` then `add(T2, S2)` yields the remainder
followed by the two blocks in order, and `remove(T1)` deletes only the first
block — provided the once-added content holds no occurrence of T2's header,
the first occurrence of T1's header in the twice-added content starts exactly
at T1's block, the first blank-line separator from there is T1's block
terminator, and T1's header does not occur in the content with T1's block
deleted. -/
theorem claim3_exclusive_amended (C R0 B1 B2 : Content) (T1 T2 : String)
    (S1 S2 : List (String × EnvEntry)) (env : Env)
    (hR : removeContent (profile_tag T1) C = R0)
    (hB1 : blockText T1 (processEnvs env S1).2 = B1)
    (hB2 : blockText T2 (processEnvs (processEnvs env S1).1 S2).2 = B2)
    (hT2 : findSubstr (profile_tag T2) (R0 ++ B1) = none)
    (h1 : findSubstr (profile_tag T1) (R0 ++ (B1 ++ B2)) = some R0.length)
    (h2 : findSubstr blankSep (B1 ++ B2) = some (B1.length - 2))
    (h3 : findSubstr (profile_tag T1) (R0 ++ B2) = none) :
    (add_env_to_user T2 S2 (add_env_to_user T1 S1 (some C) env).1
        (add_env_to_user T1 S1 (some C) env).2).1 = some (R0 ++ (B1 ++ B2))
    ∧ remove_framework_envs_from_user T1
        (add_env_to_user T2 S2 (add_env_to_user T1 S1 (some C) env).1
          (add_env_to_user T1 S1 (some C) env).2).1 = some (R0 ++ B2) := by
  have hh1 := profile_tag_ne_nil T1
  have hB1len : 2 ≤ B1.length := hB1 ▸ blockText_two_le T1 _
  have hadd1 : (add_env_to_user T1 S1 (some C) env).1 = some (R0 ++ B1) := by
    show some (removeContent (profile_tag T1) C ++ blockText T1 (processEnvs env S1).2)
        = _
    rw [hR, hB1]
  have hadd1env : (add_env_to_user T1 S1 (some C) env).2 = (processEnvs env S1).1 := rfl
  have hadd2 : (add_env_to_user T2 S2 (add_env_to_user T1 S1 (some C) env).1
      (add_env_to_user T1 S1 (some C) env).2).1 = some (R0 ++ (B1 ++ B2)) := by
    rw [hadd1, hadd1env]
    show some (removeContent (profile_tag T2) (R0 ++ B1)
        ++ blockText T2 (processEnvs (processEnvs env S1).1 S2).2) = _
    rw [hB2, removeContent, if_pos hT2, List.append_assoc]
  refine ⟨hadd2, ?_⟩
  rw [hadd2]
  show some (removeContent (profile_tag T1) (R0 ++ (B1 ++ B2))) = some (R0 ++ B2)
  have hne : findSubstr (profile_tag T1) (R0 ++ (B1 ++ B2)) ≠ none := by
    rw [h1]
    simp
  rw [removeContent, if_neg hne, removeLoop_block hh1 hB1len h1 h2 h3]

/-- C3 witness: the amended exclusivity evaluated for tags `a` and `b` on an
empty initial file. -/
theorem claim3_witness :
    (removeContent (profile_tag "a") [] = []
      ∧ blockText "a" (processEnvs emptyEnv [("A", ⟨Sum.inl "1", some false⟩)]).2
          = blockText "a" [("A", "1")]
      ∧ blockText "b"
          (processEnvs (processEnvs emptyEnv [("A", ⟨Sum.inl "1", some false⟩)]).1
            [("B", ⟨Sum.inl "2", some false⟩)]).2 = blockText "b" [("B", "2")]
      ∧ findSubstr (profile_tag "b") ([] ++ blockText "a" [("A", "1")]) = none
      ∧ findSubstr (profile_tag "a")
          ([] ++ (blockText "a" [("A", "1")] ++ blockText "b" [("B", "2")])) = some 0
      ∧ findSubstr blankSep (blockText "a" [("A", "1")] ++ blockText "b" [("B", "2")])
          = some ((blockText "a" [("A", "1")]).length - 2)
      ∧ findSubstr (profile_tag "a") ([] ++ blockText "b" [("B", "2")]) = none)
    ∧ ((add_env_to_user "b" [("B", ⟨Sum.inl "2", some false⟩)]
          (add_env_to_user "a" [("A", ⟨Sum.inl "1", some false⟩)] (some []) emptyEnv).1
          (add_env_to_user "a" [("A", ⟨Sum.inl "1", some false⟩)]
            (some []) emptyEnv).2).1
        = some ([] ++ (blockText "a" [("A", "1")] ++ blockText "b" [("B", "2")]))
      ∧ remove_framework_envs_from_user "a"
          (add_env_to_user "b" [("B", ⟨Sum.inl "2", some false⟩)]
            (add_env_to_user "a" [("A", ⟨Sum.inl "1", some false⟩)]
              (some []) emptyEnv).1
            (add_env_to_user "a" [("A", ⟨Sum.inl "1", some false⟩)]
              (some []) emptyEnv).2).1
        = some ([] ++ blockText "b" [("B", "2")])) :=
  ⟨⟨by decide, by decide, by decide, by decide, by decide, by decide, by decide⟩,
   claim3_exclusive_amended [] [] (blockText "a" [("A", "1")])
     (blockText "b" [("B", "2")]) "a" "b" [("A", ⟨Sum.inl "1", some false⟩)]
     [("B", ⟨Sum.inl "2", some false⟩)] emptyEnv (by decide) (by decide) (by decide)
     (by decide) (by decide) (by decide) (by decide)⟩

/-- C10: the process-environment effect of `add` is not idempotent for
keep-true variables. With `FOO=old` initially, the first
`add(T, {FOO: {value: "new", keep: true}})` sets the process variable to
`new:old` and the second to `new:new:old`, while both calls compute the same
profile line value `new:$FOO` and — under the well-formedness premises on
the appended block — the file content is unchanged between the calls. -/
theorem claim10_env_effect_not_idempotent (C R0 B : Content)
    (framework_tag : String) (env : Env)
    (hFOO : env "FOO" = some "old")
    (hR : removeContent (profile_tag framework_tag) C = R0)
    (hB : blockText framework_tag [("FOO", "new:$FOO")] = B)
    (h1 : findSubstr (profile_tag framework_tag) (R0 ++ B) = some R0.length)
    (h2 : findSubstr blankSep B = some (B.length - 2)) :
    (add_env_to_user framework_tag [("FOO", ⟨Sum.inl "new", some true⟩)]
        (some C) env).2 "FOO" = some "new:old"
    ∧ (add_env_to_user framework_tag [("FOO", ⟨Sum.inl "new", some true⟩)]
        (add_env_to_user framework_tag [("FOO", ⟨Sum.inl "new", some true⟩)]
          (some C) env).1
        (add_env_to_user framework_tag [("FOO", ⟨Sum.inl "new", some true⟩)]
          (some C) env).2).2 "FOO" = some "new:new:old"
    ∧ (processEnvs env [("FOO", ⟨Sum.inl "new", some true⟩)]).2
        = [("FOO", "new:$FOO")]
    ∧ (processEnvs (add_env_to_user framework_tag
          [("FOO", ⟨Sum.inl "new", some true⟩)] (some C) env).2
        [("FOO", ⟨Sum.inl "new", some true⟩)]).2 = [("FOO", "new:$FOO")]
    ∧ (add_env_to_user framework_tag [("FOO", ⟨Sum.inl "new", some true⟩)]
        (some C) env).1 = some (R0 ++ B)
    ∧ (add_env_to_user framework_tag [("FOO", ⟨Sum.inl "new", some true⟩)]
        (add_env_to_user framework_tag [("FOO", ⟨Sum.inl "new", some true⟩)]
          (some C) env).1
        (add_env_to_user framework_tag [("FOO", ⟨Sum.inl "new", some true⟩)]
          (some C) env).2).1
      = (add_env_to_user framework_tag [("FOO", ⟨Sum.inl "new", some true⟩)]
          (some C) env).1 := by
  have hh := profile_tag_ne_nil framework_tag
  have hB2len : 2 ≤ B.length := hB ▸ blockText_two_le framework_tag _
  have hR0 : findSubstr (profile_tag framework_tag) R0 = none := by
    rw [← hR]
    exact removeContent_find_none hh C
  have hpv1 : processVar env "FOO" ⟨Sum.inl "new", some true⟩
      = (updateEnv env "FOO" "new:old", "new:$FOO") := by
    unfold processVar
    have hcond : ((⟨Sum.inl "new", some true⟩ : EnvEntry).keep.getD true
        && isTruthy (env "FOO")) = true := by
      rw [hFOO]
      decide
    rw [if_pos hcond, hFOO]
    rfl
  have henv1 : (processEnvs env [("FOO", ⟨Sum.inl "new", some true⟩)]).1
      = updateEnv env "FOO" "new:old" := by
    simp only [processEnvs, hpv1]
  have hlines1 : (processEnvs env [("FOO", ⟨Sum.inl "new", some true⟩)]).2
      = [("FOO", "new:$FOO")] := by
    simp only [processEnvs, hpv1]
  have hup1 : updateEnv env "FOO" "new:old" "FOO" = some "new:old" := by
    simp [updateEnv]
  have hpv2 : processVar (updateEnv env "FOO" "new:old") "FOO"
      ⟨Sum.inl "new", some true⟩
      = (updateEnv (updateEnv env "FOO" "new:old") "FOO" "new:new:old",
         "new:$FOO") := by
    unfold processVar
    have hcond : ((⟨Sum.inl "new", some true⟩ : EnvEntry).keep.getD true
        && isTruthy (updateEnv env "FOO" "new:old" "FOO")) = true := by
      rw [hup1]
      decide
    rw [if_pos hcond, hup1]
    rfl
  have hadd1env : (add_env_to_user framework_tag
      [("FOO", ⟨Sum.inl "new", some true⟩)] (some C) env).2
      = updateEnv env "FOO" "new:old" := henv1
  have hadd1 : (add_env_to_user framework_tag [("FOO", ⟨Sum.inl "new", some true⟩)]
      (some C) env).1 = some (R0 ++ B) := by
    show some (removeContent (profile_tag framework_tag) C
        ++ blockText framework_tag
          (processEnvs env [("FOO", ⟨Sum.inl "new", some true⟩)]).2) = _
    rw [hlines1, hR, hB]
  have hlines2 : (processEnvs (updateEnv env "FOO" "new:old")
      [("FOO", ⟨Sum.inl "new", some true⟩)]).2 = [("FOO", "new:$FOO")] := by
    simp only [processEnvs, hpv2]
  refine ⟨?_, ?_, hlines1, ?_, hadd1, ?_⟩
  · show (processEnvs env [("FOO", ⟨Sum.inl "new", some true⟩)]).1 "FOO" = _
    rw [henv1, hup1]
  · rw [hadd1env]
    show (processEnvs (updateEnv env "FOO" "new:old")
        [("FOO", ⟨Sum.inl "new", some true⟩)]).1 "FOO" = _
    simp only [processEnvs, hpv2]
    simp [updateEnv]
  · rw [hadd1env]
    exact hlines2
  · rw [hadd1, hadd1env]
    show some (removeContent (profile_tag framework_tag) (R0 ++ B)
        ++ blockText framework_tag
          (processEnvs (updateEnv env "FOO" "new:old")
            [("FOO", ⟨Sum.inl "new", some true⟩)]).2) = some (R0 ++ B)
    rw [removeContent_append_block hh hB2len hR0 h1 h2, hlines2, hB]

/-- C10 witness: the non-idempotent environment effect evaluated on an empty
initial file with the concrete environment `FOO=old` and tag `t`. -/
theorem claim10_witness :
    (fooOldEnv "FOO" = some "old"
      ∧ removeContent (profile_tag "t") [] = []
      ∧ blockText "t" [("FOO", "new:$FOO")] = blockText "t" [("FOO", "new:$FOO")]
      ∧ findSubstr (profile_tag "t") ([] ++ blockText "t" [("FOO", "new:$FOO")])
          = some 0
      ∧ findSubstr blankSep (blockText "t" [("FOO", "new:$FOO")])
          = some ((blockText "t" [("FOO", "new:$FOO")]).length - 2))
    ∧ ((add_env_to_user "t" [("FOO", ⟨Sum.inl "new", some true⟩)]
          (some []) fooOldEnv).2 "FOO" = some "new:old"
      ∧ (add_env_to_user "t" [("FOO", ⟨Sum.inl "new", some true⟩)]
          (add_env_to_user "t" [("FOO", ⟨Sum.inl "new", some true⟩)]
            (some []) fooOldEnv).1
          (add_env_to_user "t" [("FOO", ⟨Sum.inl "new", some true⟩)]
            (some []) fooOldEnv).2).2 "FOO" = some "new:new:old") :=
  ⟨⟨by decide, by decide, by decide, by decide, by decide⟩,
   (claim10_env_effect_not_idempotent [] [] (blockText "t" [("FOO", "new:$FOO")])
      "t" fooOldEnv (by decide) (by decide) (by decide) (by decide) (by decide)).1,
   (claim10_env_effect_not_idempotent [] [] (blockText "t" [("FOO", "new:$FOO")])
      "t" fooOldEnv (by decide) (by decide) (by decide) (by decide) (by decide)).2.1⟩
